import Mathlib

/-!
Shallow embedding of `src/repo_miner.py` (repository `swen-746-project`):
the commit normalizer `fetch_commits`, the issue normalizer `fetch_issues`
and the summary reporter `merge_and_summarize`, together with the parts of
their environment (GitHub client, pandas cells/frames) that the verified
properties depend on.

Timestamps (`datetime` values) are modelled as integers (seconds); pandas
cells that may hold a string, a parsed timestamp or a null are modelled by
`PCell`; Python exceptions raised by this code are modelled by `PyError`.
-/

namespace RepoMiner

/-- A pandas cell in a date column: raw string, parsed timestamp, or null/NaT. -/
inductive PCell where
  | str (s : String)
  | time (t : Int)
  | null
deriving Repr, DecidableEq

/-- The Python exceptions this module can raise: `ValueError` (raised
explicitly on repository-resolution failure) and `TypeError` (raised by the
unguarded `issue.closed_at - issue.created_at` subtraction when
`created_at` is `None`). -/
inductive PyError where
  | valueError (msg : String)
  | typeError (msg : String)
deriving Repr, DecidableEq

/-- Raw commit object from the provider (the fields `repo_miner` projects:
`commit.sha`, `commit.commit.author.name/.email/.date`, `commit.commit.message`). -/
structure RawCommit where
  sha : String
  authorName : String
  authorEmail : String
  authorDate : Option Int
  message : String
deriving Repr, DecidableEq

/-- Raw issue object from the provider (the fields `repo_miner` projects;
`pull_request` is `some ()` exactly when the item is flagged as a pull request,
mirroring the Python check `issue.pull_request is not None`). -/
structure RawIssue where
  id : Int
  number : Int
  title : String
  userLogin : String
  state : String
  created_at : Option Int
  closed_at : Option Int
  comments : Int
  pull_request : Option Unit
deriving Repr, DecidableEq

/-- A resolved repository: `get_commits()` yields `commits` in order, and
`get_issues(state=s)` yields `issues s` in order. -/
structure Repo where
  commits : List RawCommit
  issues : String → List RawIssue

/-- The GitHub client: `get_repo name` is `none` when the repository cannot
be resolved by the provider. -/
structure Github where
  get_repo : String → Option Repo

/-- Modelled from the spec: `COMMIT_COLUMNS` is imported from `src/config.py`,
a file of this repository not present under `src/`; spec §3 fixes the commit
column set and order as `sha, author, email, date, message`. -/
def COMMIT_COLUMNS : List String := ["sha", "author", "email", "date", "message"]

/-- Modelled from the spec: `ISSUE_COLUMNS` is imported from `src/config.py`,
a file of this repository not present under `src/`; spec §3 fixes the issue
column set and order. -/
def ISSUE_COLUMNS : List String :=
  ["id", "number", "title", "user", "state", "created_at", "closed_at",
   "open_duration_days", "comments"]

/-- A pandas DataFrame with a fixed column list and uniformly-shaped rows. -/
structure Frame (α : Type) where
  columns : List String
  rows : List α
deriving Repr, DecidableEq

/-- Abstract model of `datetime.isoformat()`: ISO-8601 text for a timestamp.
Only its totality on non-null timestamps matters to the verified claims. -/
def isoformat (t : Int) : String := toString t

/-- `message.split('\n', 1)[0]`: everything before the first newline. -/
def firstLine (s : String) : String := (s.splitOn "\n").headD ""

/-- The message of the `ValueError` raised when `get_repo` yields no repository. -/
def repoNotFoundMsg (repo_name : String) : String :=
  "Repository `" ++ repo_name ++ "` not found or inaccessible."

/-- One row of the commit table (schema `COMMIT_COLUMNS`). -/
structure CommitRow where
  sha : String
  author : String
  email : String
  date : Option String
  message : String
deriving Repr, DecidableEq

/-- Normalization of one raw commit (step 4 of `fetch_commits`). -/
def normalizeCommit (c : RawCommit) : CommitRow :=
  { sha := c.sha
    author := c.authorName
    email := c.authorEmail
    date := c.authorDate.map isoformat
    message := firstLine c.message }

/-- `if max_commits is not None and max_commits <= 0`. -/
def maxCommitsNonpositive (max_commits : Option Int) : Bool :=
  match max_commits with
  | some m => decide (m ≤ 0)
  | none => false

/-- `commits[:max_commits] if max_commits is not None` (reached only after the
nonpositive guard, i.e. with `max_commits ≥ 1` when present). -/
def truncateCommits (commits : List RawCommit) (max_commits : Option Int) : List RawCommit :=
  match max_commits with
  | some m => commits.take m.toNat
  | none => commits

/-- `fetch_commits(repo_name, max_commits)`: early empty frame on
non-positive `max_commits`, `ValueError` when the repository does not
resolve, otherwise the normalized (possibly truncated) commit list under the
fixed commit schema. -/
def fetch_commits (g : Github) (repo_name : String) (max_commits : Option Int) :
    Except PyError (Frame CommitRow) :=
  if maxCommitsNonpositive max_commits then
    .ok ⟨COMMIT_COLUMNS, []⟩
  else
    match g.get_repo repo_name with
    | none => .error (.valueError (repoNotFoundMsg repo_name))
    | some repo =>
      .ok ⟨COMMIT_COLUMNS, (truncateCommits repo.commits max_commits).map normalizeCommit⟩

/-- One row of the issue table (schema `ISSUE_COLUMNS`). -/
structure IssueRow where
  id : Int
  number : Int
  title : String
  user : String
  state : String
  created_at : Option String
  closed_at : Option String
  open_duration_days : Option Int
  comments : Int
deriving Repr, DecidableEq

/-- Normalization of one raw (non-PR) issue. The Python record builds
`open_duration_days` as `(issue.closed_at - issue.created_at).days if
issue.closed_at else None`: the subtraction is unguarded, so when
`closed_at` is set and `created_at` is `None` it raises a `TypeError`.
`timedelta.days` is the floor of the span in whole days (`Int.fdiv`). -/
def normalizeIssue (i : RawIssue) : Except PyError IssueRow :=
  match i.closed_at with
  | none =>
    .ok { id := i.id, number := i.number, title := i.title, user := i.userLogin,
          state := i.state, created_at := i.created_at.map isoformat,
          closed_at := none, open_duration_days := none, comments := i.comments }
  | some c =>
    match i.created_at with
    | none =>
      .error (.typeError
        "unsupported operand type(s) for -: 'datetime.datetime' and 'NoneType'")
    | some cr =>
      .ok { id := i.id, number := i.number, title := i.title, user := i.userLogin,
            state := i.state, created_at := some (isoformat cr),
            closed_at := some (isoformat c),
            open_duration_days := some ((c - cr).fdiv 86400), comments := i.comments }

/-- `if max_issues and idx >= max_issues`: Python truthiness, so `None` and
`0` never trigger the break. -/
def maxIssuesReached (max_issues : Option Int) (idx : Nat) : Bool :=
  match max_issues with
  | none => false
  | some m => if m = 0 then false else decide ((idx : Int) ≥ m)

/-- The `for idx, issue in enumerate(issues)` loop of `fetch_issues`: break
once `idx` reaches a truthy `max_issues` (the index counts every provider
item, pull requests included), skip pull requests, normalize the rest. -/
def fetchIssuesLoop (max_issues : Option Int) : Nat → List RawIssue → Except PyError (List IssueRow)
  | _, [] => .ok []
  | idx, i :: rest =>
    if maxIssuesReached max_issues idx then .ok []
    else if i.pull_request.isSome then fetchIssuesLoop max_issues (idx + 1) rest
    else do
      let row ← normalizeIssue i
      let rows ← fetchIssuesLoop max_issues (idx + 1) rest
      .ok (row :: rows)

/-- `fetch_issues(repo_name, state, max_issues)`. -/
def fetch_issues (g : Github) (repo_name : String) (state : String)
    (max_issues : Option Int) : Except PyError (Frame IssueRow) :=
  match g.get_repo repo_name with
  | none => .error (.valueError (repoNotFoundMsg repo_name))
  | some repo => do
    let records ← fetchIssuesLoop max_issues 0 (repo.issues state)
    .ok ⟨ISSUE_COLUMNS, records⟩

/-- Normalization of a whole raw-issue list in order (no break, no PR skip):
the reference point for characterizing what the loop actually emits. -/
def normalizeAll : List RawIssue → Except PyError (List IssueRow)
  | [] => .ok []
  | i :: rest => do
    let row ← normalizeIssue i
    let rows ← normalizeAll rest
    .ok (row :: rows)

/-- A commit-table row as `merge_and_summarize` receives it (the `date` cell
may hold CSV text, an already-parsed timestamp, or null). -/
structure SCommitRow where
  sha : String
  author : String
  email : String
  date : PCell
  message : String
deriving Repr, DecidableEq

/-- An issue-table row as `merge_and_summarize` receives it. -/
structure SIssueRow where
  id : Int
  number : Int
  title : String
  user : String
  state : String
  created_at : PCell
  closed_at : PCell
  open_duration_days : Option Int
  comments : Int
deriving Repr, DecidableEq

/-- `pd.to_datetime(cell, errors='coerce')` on one cell, for a given string
parser: strings parse or coerce to null, timestamps pass through, nulls stay
null; coercion never raises. -/
def to_datetime (parse : String → Option Int) : PCell → PCell
  | .str s =>
    match parse s with
    | some t => .time t
    | none => .null
  | .time t => .time t
  | .null => .null

/-- Number of occurrences of a value in a column. -/
def countOcc (l : List String) (a : String) : Nat := l.countP (· == a)

/-- Helper for `dedupFirst`: keep the values not seen yet, first occurrence first. -/
def dedupFirstAux (seen : List String) : List String → List String
  | [] => []
  | a :: rest =>
    if a ∈ seen then dedupFirstAux seen rest
    else a :: dedupFirstAux (a :: seen) rest

/-- Distinct values of a column in order of first occurrence: the key order
produced by the hash table underlying `Series.value_counts()`. -/
def dedupFirst (l : List String) : List String := dedupFirstAux [] l

/-- Stable insertion of a `(value, count)` pair into a count-descending list:
the new pair goes before the first entry whose count is `≤` its own, so among
equal counts an earlier-inserted pair ends up in front. -/
def insertDesc (p : String × Nat) : List (String × Nat) → List (String × Nat)
  | [] => [p]
  | q :: rest => if q.2 ≤ p.2 then p :: q :: rest else q :: insertDesc p rest

/-- Stable insertion sort, descending by count. -/
def sortDesc : List (String × Nat) → List (String × Nat)
  | [] => []
  | p :: rest => insertDesc p (sortDesc rest)

/-- `Series.value_counts()`: the count of each distinct value, sorted
descending by count; keys enter in first-occurrence order and the sort is
stable on ties (spec §4.3 step 2 fixes this tie order for the external
pandas call). -/
def value_counts (l : List String) : List (String × Nat) :=
  sortDesc ((dedupFirst l).map (fun a => (a, countOcc l a)))

/-- `Series.mean()` with pandas' default `skipna=True`: the mean of the
non-null entries, or NaN (modelled as `none`) when every entry is null. -/
def seriesMean (l : List (Option Int)) : Option Rat :=
  let vs := l.filterMap id
  if vs.isEmpty then none
  else some ((vs.sum : Rat) / (vs.length : Rat))

/-- What `merge_and_summarize` prints: the top-5 committer counts, the issue
close rate, and the average open duration (`none` models a NaN mean). -/
structure Report where
  top_committers : List (String × Nat)
  issue_close_rate : Rat
  avg_open_duration : Option Rat
deriving Repr, DecidableEq

/-- Steps 2-4 of `merge_and_summarize`, computed from the (copied, parsed)
frames: `value_counts` on `author` truncated with `head(5)`; close rate
`len(closed)/len(issues)` guarded by `issues.empty`; mean of
`open_duration_days` over closed issues guarded by `closed_issues.empty`. -/
def reportOf (commits : Frame SCommitRow) (issues : Frame SIssueRow) : Report :=
  let closed_issues := issues.rows.filter (fun r => r.state == "closed")
  { top_committers := (value_counts (commits.rows.map (fun r => r.author))).take 5
    issue_close_rate :=
      if issues.rows.isEmpty then 0
      else (closed_issues.length : Rat) / (issues.rows.length : Rat)
    avg_open_duration :=
      if closed_issues.isEmpty then some 0
      else seriesMean (closed_issues.map (fun r => r.open_duration_days)) }

/-- The Python object store relevant to `merge_and_summarize`: the commit
frames and issue frames alive in the process; a Python variable holding a
DataFrame is an index into the matching list. Mutation (`df[col] = ...`) is
an in-place update at that index, so aliasing is observable. -/
structure Heap where
  cframes : List (Frame SCommitRow)
  iframes : List (Frame SIssueRow)
deriving Repr, DecidableEq

/-- Apply a row transformation to every row of a frame (columns unchanged). -/
def Frame.mapRows (f : Frame α) (g : α → α) : Frame α := ⟨f.columns, f.rows.map g⟩

/-- In-place update of the object at index `i` (no-op on a dangling index). -/
def listModify (l : List α) (i : Nat) (g : α → α) : List α :=
  match l[i]? with
  | none => l
  | some x => l.set i (g x)

/-- `.copy()` on a commit frame: allocate a fresh object with the same value
and return its reference. -/
def Heap.copyCommits (h : Heap) (i : Nat) : Option (Heap × Nat) :=
  (h.cframes[i]?).map fun f => ({ h with cframes := h.cframes ++ [f] }, h.cframes.length)

/-- `.copy()` on an issue frame. -/
def Heap.copyIssues (h : Heap) (i : Nat) : Option (Heap × Nat) :=
  (h.iframes[i]?).map fun f => ({ h with iframes := h.iframes ++ [f] }, h.iframes.length)

/-- Coerce the `date` cell of one commit row. -/
def parseCommitRow (parse : String → Option Int) (r : SCommitRow) : SCommitRow :=
  { r with date := to_datetime parse r.date }

/-- Coerce the `created_at` cell of one issue row. -/
def parseIssueCreatedRow (parse : String → Option Int) (r : SIssueRow) : SIssueRow :=
  { r with created_at := to_datetime parse r.created_at }

/-- Coerce the `closed_at` cell of one issue row. -/
def parseIssueClosedRow (parse : String → Option Int) (r : SIssueRow) : SIssueRow :=
  { r with closed_at := to_datetime parse r.closed_at }

/-- `commits['date'] = pd.to_datetime(commits['date'], errors='coerce')`. -/
def Heap.setCommitDate (h : Heap) (i : Nat) (parse : String → Option Int) : Heap :=
  { h with cframes := listModify h.cframes i (fun f => f.mapRows (parseCommitRow parse)) }

/-- `issues['created_at'] = pd.to_datetime(issues['created_at'], errors='coerce')`. -/
def Heap.setIssueCreated (h : Heap) (i : Nat) (parse : String → Option Int) : Heap :=
  { h with iframes := listModify h.iframes i (fun f => f.mapRows (parseIssueCreatedRow parse)) }

/-- `issues['closed_at'] = pd.to_datetime(issues['closed_at'], errors='coerce')`. -/
def Heap.setIssueClosed (h : Heap) (i : Nat) (parse : String → Option Int) : Heap :=
  { h with iframes := listModify h.iframes i (fun f => f.mapRows (parseIssueClosedRow parse)) }

/-- `merge_and_summarize(commits_df, issues_df)`, over the heap: copy both
input frames, coerce the three date columns on the copies in place, then
compute the report from the copies. `parse` is the timestamp parser used by
`pd.to_datetime`; `none` on a dangling reference (a caller error Python
would surface as an attribute/key error, outside this code). -/
def merge_and_summarize (parse : String → Option Int) (h0 : Heap)
    (commits_df issues_df : Nat) : Option (Heap × Report) :=
  match h0.copyCommits commits_df with
  | none => none
  | some (h1, commits) =>
    match h1.copyIssues issues_df with
    | none => none
    | some (h2, issues) =>
      let h3 := h2.setCommitDate commits parse
      let h4 := h3.setIssueCreated issues parse
      let h5 := h4.setIssueClosed issues parse
      match h5.cframes[commits]?, h5.iframes[issues]? with
      | some cf, some yf => some (h5, reportOf cf yf)
      | _, _ => none

/-! ### Concrete providers and frames used to instantiate the theorems -/

/-- A client for which no repository resolves. -/
def ghostClient : Github := ⟨fun _ => none⟩

/-- A raw commit as the provider yields it. -/
def sampleCommit : RawCommit :=
  ⟨"sha1", "Alice", "a@example.com", some 0, "Initial commit\nDetails"⟩

/-- An open issue (never closed). -/
def sampleIssueOpen : RawIssue := ⟨1, 101, "Issue A", "alice", "open", some 0, none, 0, none⟩

/-- A closed issue, closed two days after creation. -/
def sampleIssueClosed : RawIssue :=
  ⟨2, 102, "Issue B", "bob", "closed", some 0, some 172800, 2, none⟩

/-- A provider item flagged as a pull request. -/
def samplePR : RawIssue := ⟨3, 112, "PR item", "carol", "open", some 0, none, 0, some ()⟩

/-- A repository whose issue listing starts with a pull request. -/
def sampleRepo : Repo := ⟨[sampleCommit], fun _ => [samplePR, sampleIssueOpen, sampleIssueClosed]⟩

/-- A client resolving every name to `sampleRepo`. -/
def sampleClient : Github := ⟨fun _ => some sampleRepo⟩

/-- A provider item violating the state/closed_at consistency the spec
assumes: `state = "open"` yet `closed_at` set. -/
def inconsistentIssue : RawIssue := ⟨4, 104, "odd", "dave", "open", some 0, some 100, 0, none⟩

/-- A repository yielding only `inconsistentIssue`. -/
def inconsistentRepo : Repo := ⟨[], fun _ => [inconsistentIssue]⟩

/-- A client resolving every name to `inconsistentRepo`. -/
def inconsistentClient : Github := ⟨fun _ => some inconsistentRepo⟩

/-- A provider item with `closed_at` set but `created_at` missing: the input
on which the unguarded subtraction in `fetch_issues` raises. -/
def badIssue : RawIssue := ⟨5, 105, "bad", "erin", "closed", none, some 50, 0, none⟩

/-- The row `fetch_issues` produces for `sampleIssueOpen`. -/
def sampleRowOpen : IssueRow :=
  ⟨1, 101, "Issue A", "alice", "open", some (isoformat 0), none, none, 0⟩

/-- The row `fetch_issues` produces for `sampleIssueClosed`. -/
def sampleRowClosed : IssueRow :=
  ⟨2, 102, "Issue B", "bob", "closed", some (isoformat 0), some (isoformat 172800), some 2, 2⟩

/-- The row `fetch_issues` produces for `inconsistentIssue`: open state but
non-null `closed_at` and `open_duration_days`, copied through unchecked. -/
def inconsistentRow : IssueRow :=
  ⟨4, 104, "odd", "dave", "open", some (isoformat 0), some (isoformat 100), some 0, 0⟩

/-- A timestamp parser that parses nothing (every string is malformed). -/
def noParse : String → Option Int := fun _ => none

/-- A timestamp parser that parses everything (to timestamp 0). -/
def zeroParse : String → Option Int := fun _ => some 0

/-- A heap holding one empty commit frame and one empty issue frame. -/
def emptyHeap : Heap := ⟨[⟨COMMIT_COLUMNS, []⟩], [⟨ISSUE_COLUMNS, []⟩]⟩

/-- The commit frame of the repository's own summarizer test: authors X, Y, X, Z. -/
def sampleCommitFrame : Frame SCommitRow :=
  ⟨COMMIT_COLUMNS,
   [⟨"a", "X", "x@e", .str "2025-01-01T00:00:00", "m1"⟩,
    ⟨"b", "Y", "y@e", .str "2025-01-01T01:00:00", "m2"⟩,
    ⟨"c", "X", "x@e", .str "2025-01-02T00:00:00", "m3"⟩,
    ⟨"d", "Z", "z@e", .str "bad-date", "m4"⟩]⟩

/-- The issue frame of the repository's own summarizer test: closed, open, closed. -/
def sampleIssueFrame : Frame SIssueRow :=
  ⟨ISSUE_COLUMNS,
   [⟨1, 101, "I1", "u1", "closed", .str "2025-01-01T00:00:00", .str "2025-01-01T12:00:00", some 0, 0⟩,
    ⟨2, 102, "I2", "u2", "open", .str "2025-01-01T02:00:00", .null, none, 1⟩,
    ⟨3, 103, "I3", "u3", "closed", .str "2025-01-02T00:00:00", .str "2025-01-02T12:00:00", some 1, 2⟩]⟩

/-- A heap holding the two sample frames. -/
def sampleHeap : Heap := ⟨[sampleCommitFrame], [sampleIssueFrame]⟩

/-- The heap `merge_and_summarize` leaves behind when run on `sampleHeap`
with the parser that parses nothing: the originals followed by the parsed
private copies. -/
def sampleHeapAfter : Heap :=
  ⟨[sampleCommitFrame, sampleCommitFrame.mapRows (parseCommitRow noParse)],
   [sampleIssueFrame,
    (sampleIssueFrame.mapRows (parseIssueCreatedRow noParse)).mapRows
      (parseIssueClosedRow noParse)]⟩

/-! ### Lemmas about the stable descending sort behind `value_counts` -/

theorem insertDesc_perm (p : String × Nat) (l : List (String × Nat)) :
    (insertDesc p l).Perm (p :: l) := by
  induction l with
  | nil => exact List.Perm.refl _
  | cons q rest ih =>
    by_cases hle : q.2 ≤ p.2
    · simp [insertDesc, if_pos hle]
    · simp only [insertDesc, if_neg hle]
      exact (List.Perm.cons q ih).trans (List.Perm.swap p q rest)

theorem sortDesc_perm (l : List (String × Nat)) : (sortDesc l).Perm l := by
  induction l with
  | nil => exact List.Perm.refl _
  | cons p rest ih =>
    exact (insertDesc_perm p (sortDesc rest)).trans (List.Perm.cons p ih)

theorem pairwise_insertDesc {p : String × Nat} {l : List (String × Nat)}
    (h : l.Pairwise (fun a b => b.2 ≤ a.2)) :
    (insertDesc p l).Pairwise (fun a b => b.2 ≤ a.2) := by
  induction l with
  | nil => simp [insertDesc]
  | cons q rest ih =>
    rcases List.pairwise_cons.mp h with ⟨hq, hrest⟩
    by_cases hle : q.2 ≤ p.2
    · simp only [insertDesc, if_pos hle]
      refine List.pairwise_cons.mpr ⟨?_, h⟩
      intro x hx
      rcases List.mem_cons.mp hx with rfl | hx
      · exact hle
      · exact le_trans (hq x hx) hle
    · simp only [insertDesc, if_neg hle]
      refine List.pairwise_cons.mpr ⟨?_, ih hrest⟩
      intro x hx
      rcases List.mem_cons.mp ((insertDesc_perm p rest).mem_iff.mp hx) with rfl | hx
      · exact le_of_not_le hle
      · exact hq x hx

theorem sortDesc_sorted (l : List (String × Nat)) :
    (sortDesc l).Pairwise (fun a b => b.2 ≤ a.2) := by
  induction l with
  | nil => simp [sortDesc]
  | cons p rest ih => exact pairwise_insertDesc ih

theorem filter_insertDesc (n : Nat) (p : String × Nat) (l : List (String × Nat)) :
    (insertDesc p l).filter (fun q => q.2 == n) =
      if p.2 == n then p :: l.filter (fun q => q.2 == n)
      else l.filter (fun q => q.2 == n) := by
  induction l with
  | nil => simp [insertDesc, List.filter_cons]
  | cons q rest ih =>
    by_cases hle : q.2 ≤ p.2
    · simp only [insertDesc, if_pos hle]
      exact List.filter_cons
    · simp only [insertDesc, if_neg hle, List.filter_cons, ih]
      by_cases hpn : p.2 = n
      · have hq2 : ¬ (q.2 = n) := by
          have : p.2 < q.2 := Nat.lt_of_not_le hle
          omega
        simp [hpn, hq2, List.filter_cons]
      · simp [hpn, List.filter_cons]

theorem filter_sortDesc (n : Nat) (l : List (String × Nat)) :
    (sortDesc l).filter (fun q => q.2 == n) = l.filter (fun q => q.2 == n) := by
  induction l with
  | nil => simp [sortDesc]
  | cons p rest ih =>
    simp only [sortDesc, filter_insertDesc, ih, List.filter_cons]

theorem mem_value_counts {l : List String} {p : String × Nat}
    (hp : p ∈ value_counts l) : p.2 = countOcc l p.1 := by
  have hmem : p ∈ (dedupFirst l).map (fun a => (a, countOcc l a)) :=
    (sortDesc_perm _).mem_iff.mp hp
  rcases List.mem_map.mp hmem with ⟨a, _, rfl⟩
  rfl

/-! ### Lemmas about the `fetch_issues` loop -/

theorem fetchIssuesLoop_unbounded (mi : Option Int) (hmi : mi = none ∨ mi = some 0)
    (idx : Nat) (raws : List RawIssue) :
    fetchIssuesLoop mi idx raws =
      normalizeAll (raws.filter (fun i => i.pull_request.isNone)) := by
  induction raws generalizing idx with
  | nil => rcases hmi with rfl | rfl <;> rfl
  | cons i rest ih =>
    have hreach : maxIssuesReached mi idx = false := by
      rcases hmi with rfl | rfl <;> simp [maxIssuesReached]
    rcases hp : i.pull_request with _ | u
    · simp [fetchIssuesLoop, hreach, hp, List.filter_cons, normalizeAll, ih (idx + 1)]
    · simp [fetchIssuesLoop, hreach, hp, List.filter_cons, ih (idx + 1)]

theorem fetchIssuesLoop_bounded (m : Int) (hm : 0 < m) (idx : Nat)
    (raws : List RawIssue) (hidx : idx ≤ m.toNat) :
    fetchIssuesLoop (some m) idx raws =
      normalizeAll ((raws.take (m.toNat - idx)).filter (fun i => i.pull_request.isNone)) := by
  induction raws generalizing idx with
  | nil => simp [fetchIssuesLoop, normalizeAll]
  | cons i rest ih =>
    by_cases heq : idx = m.toNat
    · subst heq
      have hreach : maxIssuesReached (some m) m.toNat = true := by
        simp only [maxIssuesReached]
        rw [if_neg (by omega)]
        simp only [decide_eq_true_eq]
        omega
      rw [fetchIssuesLoop, if_pos hreach]
      simp [Nat.sub_self, normalizeAll]
    · have hlt : idx < m.toNat := lt_of_le_of_ne hidx heq
      have hreach : maxIssuesReached (some m) idx = false := by
        simp only [maxIssuesReached]
        rw [if_neg (by omega)]
        simp only [decide_eq_false_iff_not]
        omega
      have htake : m.toNat - idx = (m.toNat - (idx + 1)) + 1 := by omega
      rw [htake]
      rcases hp : i.pull_request with _ | u
      · simp [fetchIssuesLoop, hreach, hp, List.filter_cons, normalizeAll,
          ih (idx + 1) (by omega)]
      · simp [fetchIssuesLoop, hreach, hp, List.filter_cons, ih (idx + 1) (by omega)]

theorem fetchIssuesLoop_negative (m : Int) (hm : m < 0) (idx : Nat)
    (raws : List RawIssue) : fetchIssuesLoop (some m) idx raws = .ok [] := by
  cases raws with
  | nil => rfl
  | cons i rest =>
    have hreach : maxIssuesReached (some m) idx = true := by
      simp only [maxIssuesReached]
      rw [if_neg (by omega)]
      simp only [decide_eq_true_eq]
      omega
    simp [fetchIssuesLoop, hreach]

theorem normalizeIssue_ok {i : RawIssue} {r : IssueRow} (h : normalizeIssue i = .ok r) :
    r.state = i.state ∧ (r.closed_at.isSome ↔ i.closed_at.isSome) ∧
    (r.closed_at.isSome ↔ r.open_duration_days.isSome) ∧
    (r.created_at.isSome ↔ i.created_at.isSome) := by
  rcases hc : i.closed_at with _ | c
  · rw [normalizeIssue, hc] at h
    cases h
    simp [hc]
  · rcases hcr : i.created_at with _ | cr
    · rw [normalizeIssue, hc, hcr] at h
      cases h
    · rw [normalizeIssue, hc, hcr] at h
      cases h
      simp [hc, hcr]

theorem fetchIssuesLoop_mem {mi : Option Int} {idx : Nat} {raws : List RawIssue}
    {rows : List IssueRow} (h : fetchIssuesLoop mi idx raws = .ok rows) :
    ∀ r ∈ rows, ∃ i, i ∈ raws ∧ i.pull_request = none ∧ normalizeIssue i = .ok r := by
  induction raws generalizing idx rows with
  | nil =>
    rw [fetchIssuesLoop] at h
    cases h
    intro r hr
    cases hr
  | cons i rest ih =>
    by_cases hreach : maxIssuesReached mi idx
    · rw [fetchIssuesLoop, if_pos hreach] at h
      cases h
      intro r hr
      cases hr
    · rcases hp : i.pull_request with _ | u
      · rw [fetchIssuesLoop, if_neg hreach, hp] at h
        simp only [Option.isSome_none, Bool.false_eq_true, if_false] at h
        rcases hni : normalizeIssue i with e | row <;> rw [hni] at h
        · cases h
        · rcases hloop : fetchIssuesLoop mi (idx + 1) rest with e | rows' <;>
            rw [hloop] at h
          · cases h
          · cases h
            intro r hr
            rcases List.mem_cons.mp hr with rfl | hr
            · exact ⟨i, List.mem_cons_self i rest, hp, hni⟩
            · rcases ih hloop r hr with ⟨j, hj, hjp, hjn⟩
              exact ⟨j, List.mem_cons_of_mem i hj, hjp, hjn⟩
      · rw [fetchIssuesLoop, if_neg hreach, hp] at h
        simp only [Option.isSome_some, if_true] at h
        intro r hr
        rcases ih h r hr with ⟨j, hj, hjp, hjn⟩
        exact ⟨j, List.mem_cons_of_mem i hj, hjp, hjn⟩

theorem fetch_issues_ok_inv {g : Github} {rn st : String} {mi : Option Int}
    {f : Frame IssueRow} (hf : fetch_issues g rn st mi = .ok f) :
    ∃ repo records, g.get_repo rn = some repo ∧
      fetchIssuesLoop mi 0 (repo.issues st) = .ok records ∧
      f = ⟨ISSUE_COLUMNS, records⟩ := by
  rw [fetch_issues] at hf
  rcases hg : g.get_repo rn with _ | repo <;> rw [hg] at hf
  · cases hf
  · have hf' : Except.bind (fetchIssuesLoop mi 0 (repo.issues st))
        (fun records => Except.ok (⟨ISSUE_COLUMNS, records⟩ : Frame IssueRow)) =
        .ok f := hf
    rcases hl : fetchIssuesLoop mi 0 (repo.issues st) with e | records <;>
      rw [hl] at hf'
    · exact absurd hf' (by simp [Except.bind])
    · simp only [Except.bind, Except.ok.injEq] at hf'
      exact ⟨repo, records, rfl, hl, hf'.symm⟩

theorem fetch_issues_eq_of_loop {g : Github} {rn st : String} {mi : Option Int}
    {repo : Repo} (hg : g.get_repo rn = some repo)
    {res : Except PyError (List IssueRow)}
    (hl : fetchIssuesLoop mi 0 (repo.issues st) = res) :
    fetch_issues g rn st mi =
      res.map (fun rows => (⟨ISSUE_COLUMNS, rows⟩ : Frame IssueRow)) := by
  rw [fetch_issues, hg]
  show Except.bind (fetchIssuesLoop mi 0 (repo.issues st))
    (fun records => Except.ok (⟨ISSUE_COLUMNS, records⟩ : Frame IssueRow)) = _
  rw [hl]
  cases res with
  | error e => rfl
  | ok rows => rfl

/-! ### Lemmas about `merge_and_summarize` -/

theorem set_concat_length {α : Type} (l : List α) (a b : α) :
    (l ++ [a]).set l.length b = l ++ [b] := by
  induction l with
  | nil => rfl
  | cons x xs ih =>
    show x :: (xs ++ [a]).set xs.length b = x :: (xs ++ [b])
    rw [ih]

theorem listModify_concat {α : Type} (l : List α) (a : α) (g : α → α) :
    listModify (l ++ [a]) l.length g = l ++ [g a] := by
  simp [listModify, List.getElem?_concat_length, set_concat_length]

theorem isEmpty_map {α β : Type} (f : α → β) (l : List α) :
    (l.map f).isEmpty = l.isEmpty := by
  cases l <;> rfl

theorem merge_and_summarize_eq (parse : String → Option Int) {h : Heap} {ci ii : Nat}
    {fc : Frame SCommitRow} {fi : Frame SIssueRow}
    (hc : h.cframes[ci]? = some fc) (hi : h.iframes[ii]? = some fi) :
    merge_and_summarize parse h ci ii =
      some (⟨h.cframes ++ [fc.mapRows (parseCommitRow parse)],
             h.iframes ++ [(fi.mapRows (parseIssueCreatedRow parse)).mapRows
               (parseIssueClosedRow parse)]⟩,
        reportOf (fc.mapRows (parseCommitRow parse))
          ((fi.mapRows (parseIssueCreatedRow parse)).mapRows
            (parseIssueClosedRow parse))) := by
  simp only [merge_and_summarize, Heap.copyCommits, Heap.copyIssues, hc, hi,
    Option.map_some']
  simp only [Heap.setCommitDate, Heap.setIssueCreated, Heap.setIssueClosed]
  simp only [listModify_concat, List.getElem?_concat_length]

/-- The report depends only on the `author`, `state` and `open_duration_days`
columns: coercing the three date columns (with any parsers) leaves it
unchanged. -/
theorem reportOf_parse (p1 p2 p3 : String → Option Int)
    (fc : Frame SCommitRow) (fi : Frame SIssueRow) :
    reportOf (fc.mapRows (parseCommitRow p1))
      ((fi.mapRows (parseIssueCreatedRow p2)).mapRows (parseIssueClosedRow p3)) =
      reportOf fc fi := by
  simp only [reportOf, Frame.mapRows, List.map_map, List.filter_map,
    List.length_map, isEmpty_map]
  rfl

/-! ### The claims -/

/-- C4: for every provided `max_count ≤ 0`, `fetch_commits` returns a
zero-row table whose column set and order is exactly the commit schema, and
the result does not depend on the provider (no provider call is made). -/
theorem claim_C4 (g g' : Github) (repo_name : String) (m : Int) (hm : m ≤ 0) :
    fetch_commits g repo_name (some m) = .ok ⟨COMMIT_COLUMNS, []⟩ ∧
    fetch_commits g repo_name (some m) = fetch_commits g' repo_name (some m) := by
  have hguard : maxCommitsNonpositive (some m) = true := by
    simp [maxCommitsNonpositive, hm]
  constructor
  · rw [fetch_commits, if_pos hguard]
  · rw [fetch_commits, if_pos hguard, fetch_commits, if_pos hguard]

/-- C4 witness: the theorem applied at `max_count = 0` and a provider that
resolves nothing. -/
theorem claim_C4_witness :
    fetch_commits ghostClient "octocat/Hello-World" (some 0) = .ok ⟨COMMIT_COLUMNS, []⟩ :=
  (claim_C4 ghostClient sampleClient "octocat/Hello-World" 0 (by decide)).1

/-- C7: every frame either fetcher returns carries exactly the fixed column
list of its schema, however many rows are produced. -/
theorem claim_C7 (g g' : Github) (rn rn' st : String) (mc mi : Option Int) :
    (∀ f, fetch_commits g rn mc = .ok f → f.columns = COMMIT_COLUMNS) ∧
    (∀ f, fetch_issues g' rn' st mi = .ok f → f.columns = ISSUE_COLUMNS) := by
  constructor
  · intro f hf
    rw [fetch_commits] at hf
    by_cases hg : maxCommitsNonpositive mc
    · rw [if_pos hg] at hf
      cases hf
      rfl
    · rw [if_neg hg] at hf
      rcases hr : g.get_repo rn with _ | repo <;> rw [hr] at hf
      · cases hf
      · cases hf
        rfl
  · intro f hf
    rcases fetch_issues_ok_inv hf with ⟨repo, records, _, _, rfl⟩
    rfl

/-- C7 witness: the theorem applied to the sample provider, on the frames the
fetchers actually produce for it. -/
theorem claim_C7_witness :
    (Frame.mk COMMIT_COLUMNS [normalizeCommit sampleCommit]).columns = COMMIT_COLUMNS ∧
    (Frame.mk ISSUE_COLUMNS [sampleRowOpen, sampleRowClosed]).columns = ISSUE_COLUMNS :=
  ⟨(claim_C7 sampleClient sampleClient "r" "r" "all" none none).1
      ⟨COMMIT_COLUMNS, [normalizeCommit sampleCommit]⟩ rfl,
   (claim_C7 sampleClient sampleClient "r" "r" "all" none none).2
      ⟨ISSUE_COLUMNS, [sampleRowOpen, sampleRowClosed]⟩ rfl⟩

/-- C2 counterexample: with `max_count = 0` supplied, `fetch_commits` returns
the empty frame without consulting the provider, so an unresolvable
repository identifier does not make it fail at all. -/
theorem claim_C2_counterexample :
    ghostClient.get_repo "ghost/missing" = none ∧
    fetch_commits ghostClient "ghost/missing" (some 0) = .ok ⟨COMMIT_COLUMNS, []⟩ :=
  ⟨rfl, rfl⟩

/-- C2 (amended): whenever the provider cannot resolve the repository
identifier — and, for `fetch_commits`, the `max_count ≤ 0` short-circuit does
not apply — both fetchers fail with exactly the repository-not-found
`ValueError` (the spec's `RepositoryNotFoundError`), whose message names the
unresolvable identifier. -/
theorem claim_C2_amended (g : Github) (rn st : String) (mc mi : Option Int)
    (hg : g.get_repo rn = none) (hmc : maxCommitsNonpositive mc = false) :
    fetch_commits g rn mc = .error (.valueError (repoNotFoundMsg rn)) ∧
    fetch_issues g rn st mi = .error (.valueError (repoNotFoundMsg rn)) ∧
    ∃ pre post, repoNotFoundMsg rn = pre ++ rn ++ post := by
  refine ⟨?_, ?_, "Repository `", "` not found or inaccessible.", rfl⟩
  · rw [fetch_commits, if_neg (by simp [hmc]), hg]
  · rw [fetch_issues, hg]

/-- C2 witness: the amended theorem applied to a client that resolves
nothing, with no `max_count` given. -/
theorem claim_C2_witness :
    fetch_commits ghostClient "ghost/missing" none =
      .error (.valueError (repoNotFoundMsg "ghost/missing")) :=
  (claim_C2_amended ghostClient "ghost/missing" "all" none none rfl rfl).1

/-- C10: `normalizeIssue` errors exactly when `closed_at` is set and
`created_at` is null (the unguarded subtraction), and every successfully
produced row with a non-null `open_duration_days` has a non-null
`created_at` — both row-wise and for every row of a returned table. -/
theorem claim_C10 :
    (∀ i : RawIssue,
        (∃ e, normalizeIssue i = .error e) ↔ (i.closed_at.isSome ∧ i.created_at = none)) ∧
    (∀ (i : RawIssue) (r : IssueRow), normalizeIssue i = .ok r →
        r.open_duration_days.isSome → r.created_at.isSome) ∧
    (∀ (g : Github) (rn st : String) (mi : Option Int) (f : Frame IssueRow),
        fetch_issues g rn st mi = .ok f →
        ∀ r ∈ f.rows, r.open_duration_days.isSome → r.created_at.isSome) := by
  have herr : ∀ i : RawIssue,
      (∃ e, normalizeIssue i = .error e) ↔ (i.closed_at.isSome ∧ i.created_at = none) := by
    intro i
    rcases hc : i.closed_at with _ | c
    · simp [normalizeIssue, hc]
    · rcases hcr : i.created_at with _ | cr
      · simp [normalizeIssue, hc, hcr]
      · simp [normalizeIssue, hc, hcr]
  have hok : ∀ (i : RawIssue) (r : IssueRow), normalizeIssue i = .ok r →
      r.open_duration_days.isSome → r.created_at.isSome := by
    intro i r h hdur
    rcases hcr : i.created_at with _ | cr
    · exfalso
      rcases normalizeIssue_ok h with ⟨_, hcl, hcd, _⟩
      have hclosed : i.closed_at.isSome := hcl.mp (hcd.mpr hdur)
      rcases (herr i).mpr ⟨hclosed, hcr⟩ with ⟨e, he⟩
      rw [he] at h
      cases h
    · exact (normalizeIssue_ok h).2.2.2.mpr (by rw [hcr]; rfl)
  refine ⟨herr, hok, ?_⟩
  intro g rn st mi f hf r hr hdur
  rcases fetch_issues_ok_inv hf with ⟨repo, records, hg, hl, rfl⟩
  rcases fetchIssuesLoop_mem hl r hr with ⟨i, _, _, hni⟩
  exact hok i r hni hdur

/-- C10 witness: the error branch is reached at a concrete provider item
with `closed_at` set and `created_at` missing. -/
theorem claim_C10_witness : ∃ e, normalizeIssue badIssue = .error e :=
  (claim_C10.1 badIssue).mpr ⟨by decide, rfl⟩

/-- C3 counterexample: the provider can yield an item with `state = "open"`
yet a set `closed_at`; `fetch_issues` copies the state through unchecked, so
the returned row violates `state == "closed" ⇔ closed_at non-null`. -/
theorem claim_C3_counterexample :
    fetch_issues inconsistentClient "r" "all" none =
      .ok ⟨ISSUE_COLUMNS, [inconsistentRow]⟩ ∧
    inconsistentRow ∈ (Frame.mk ISSUE_COLUMNS [inconsistentRow]).rows ∧
    ¬ (inconsistentRow.state = "closed" ↔ inconsistentRow.closed_at.isSome) :=
  ⟨rfl, List.mem_singleton.mpr rfl, by decide⟩

/-- C3 (amended): in every returned row, `closed_at` is non-null iff
`open_duration_days` is non-null, unconditionally; the remaining equivalence
`state == "closed" ⇔ closed_at non-null` holds for every returned row
provided every provider item already satisfies it — the code copies `state`
through without enforcing it. -/
theorem claim_C3_amended (g : Github) (rn st : String) (mi : Option Int)
    (f : Frame IssueRow) (hf : fetch_issues g rn st mi = .ok f) :
    (∀ r ∈ f.rows, (r.closed_at.isSome ↔ r.open_duration_days.isSome)) ∧
    ((∀ repo, g.get_repo rn = some repo →
        ∀ i ∈ repo.issues st, (i.state = "closed" ↔ i.closed_at.isSome)) →
      ∀ r ∈ f.rows, ((r.state = "closed" ↔ r.closed_at.isSome) ∧
        (r.closed_at.isSome ↔ r.open_duration_days.isSome))) := by
  rcases fetch_issues_ok_inv hf with ⟨repo, records, hg, hl, rfl⟩
  constructor
  · intro r hr
    rcases fetchIssuesLoop_mem hl r hr with ⟨i, _, _, hni⟩
    exact (normalizeIssue_ok hni).2.2.1
  · intro hwf r hr
    rcases fetchIssuesLoop_mem hl r hr with ⟨i, hi, _, hni⟩
    rcases normalizeIssue_ok hni with ⟨hstate, hcl, hcd, _⟩
    refine ⟨?_, hcd⟩
    rw [hstate]
    exact (hwf repo hg i hi).trans hcl.symm

/-- C3 witness: the amended theorem applied to the sample provider, whose
items are all state-consistent, at the closed row it returns. -/
theorem claim_C3_witness :
    sampleRowClosed.state = "closed" ↔ sampleRowClosed.closed_at.isSome := by
  have h := (claim_C3_amended sampleClient "r" "all" none
      ⟨ISSUE_COLUMNS, [sampleRowOpen, sampleRowClosed]⟩ rfl).2
    (by
      intro repo hrepo i hi
      cases hrepo
      have hi' : i ∈ [samplePR, sampleIssueOpen, sampleIssueClosed] := hi
      simp only [List.mem_cons, List.not_mem_nil, or_false] at hi'
      rcases hi' with rfl | rfl | rfl <;> decide)
    sampleRowClosed (by simp)
  exact h.1

/-- C1 counterexample: with `max_count = 1` and a provider yielding a pull
request first, the loop breaks after examining one item (the PR), so the
table has 0 rows although `min(max_count, number of non-PR issues) = 1`. -/
theorem claim_C1_counterexample :
    fetch_issues sampleClient "r" "all" (some 1) = .ok ⟨ISSUE_COLUMNS, []⟩ ∧
    min 1 (((sampleRepo.issues "all").filter
      (fun i => i.pull_request.isNone)).length) = 1 ∧
    (Frame.mk ISSUE_COLUMNS ([] : List IssueRow)).rows.length ≠ 1 :=
  ⟨rfl, rfl, by decide⟩

/-- C1 (amended): a truthy `max_issues` bounds the number of provider items
examined, pull requests included: with `0 < m` the result is the
normalization of the non-PR items among the first `m` provider items (so a
skipped PR does count against `max_issues`); a negative `m` breaks the loop
immediately; `None` and `0` are falsy and mean unbounded. -/
theorem claim_C1_amended (g : Github) (rn st : String) (repo : Repo)
    (hg : g.get_repo rn = some repo) :
    (∀ m : Int, 0 < m →
      fetch_issues g rn st (some m) =
        (normalizeAll (((repo.issues st).take m.toNat).filter
          (fun i => i.pull_request.isNone))).map
            (fun rows => (⟨ISSUE_COLUMNS, rows⟩ : Frame IssueRow))) ∧
    (∀ m : Int, m < 0 →
      fetch_issues g rn st (some m) = .ok ⟨ISSUE_COLUMNS, []⟩) ∧
    (∀ mi : Option Int, mi = none ∨ mi = some 0 →
      fetch_issues g rn st mi =
        (normalizeAll ((repo.issues st).filter
          (fun i => i.pull_request.isNone))).map
            (fun rows => (⟨ISSUE_COLUMNS, rows⟩ : Frame IssueRow))) := by
  refine ⟨?_, ?_, ?_⟩
  · intro m hm
    have hl := fetchIssuesLoop_bounded m hm 0 (repo.issues st) (Nat.zero_le _)
    rw [Nat.sub_zero] at hl
    exact fetch_issues_eq_of_loop hg hl
  · intro m hm
    exact (fetch_issues_eq_of_loop hg (fetchIssuesLoop_negative m hm 0 _)).trans rfl
  · intro mi hmi
    exact fetch_issues_eq_of_loop hg (fetchIssuesLoop_unbounded mi hmi 0 _)

/-- C1 witness: the amended theorem applied at `max_issues = 2` on the
sample provider: the first two items are a PR and one real issue, so exactly
one row comes back. -/
theorem claim_C1_witness :
    fetch_issues sampleClient "r" "all" (some 2) = .ok ⟨ISSUE_COLUMNS, [sampleRowOpen]⟩ :=
  ((claim_C1_amended sampleClient "r" "all" sampleRepo rfl).1 2 (by decide)).trans rfl

/-- C6: the reported top committers are `value_counts` of the `author`
column truncated to 5, where `value_counts` is sorted descending by count,
each count is the author's number of commit rows, the 5 kept entries all
dominate every dropped entry, and authors with equal counts stay in
first-encountered order. -/
theorem claim_C6 (commits : Frame SCommitRow) (issues : Frame SIssueRow)
    (l : List String) (hl : l = commits.rows.map (fun r => r.author)) :
    (reportOf commits issues).top_committers = (value_counts l).take 5 ∧
    (value_counts l).Pairwise (fun p q => q.2 ≤ p.2) ∧
    (∀ p ∈ value_counts l, p.2 = countOcc l p.1) ∧
    (∀ p ∈ (value_counts l).take 5, ∀ q ∈ (value_counts l).drop 5, q.2 ≤ p.2) ∧
    (∀ n : Nat, (value_counts l).filter (fun q => q.2 == n) =
      ((dedupFirst l).filter (fun a => countOcc l a == n)).map
        (fun a => (a, countOcc l a))) := by
  subst hl
  refine ⟨rfl, sortDesc_sorted _, fun p hp => mem_value_counts hp, ?_, ?_⟩
  · intro p hp q hq
    have hpair := sortDesc_sorted
      ((dedupFirst (commits.rows.map (fun r => r.author))).map
        (fun a => (a, countOcc (commits.rows.map (fun r => r.author)) a)))
    have hsplit :
        (value_counts (commits.rows.map (fun r => r.author))).Pairwise
          (fun p q => q.2 ≤ p.2) := hpair
    rw [← List.take_append_drop 5
      (value_counts (commits.rows.map (fun r => r.author)))] at hsplit
    exact (List.pairwise_append.mp hsplit).2.2 p hp q hq
  · intro n
    rw [value_counts, filter_sortDesc, List.filter_map]
    rfl

/-- C6 witness: the theorem applied to the commit frame of the repository's
own summarizer test (authors X, Y, X, Z), reading off the tied-count order. -/
theorem claim_C6_witness :
    (value_counts ["X", "Y", "X", "Z"]).filter (fun q => q.2 == 1) =
      [("Y", 1), ("Z", 1)] := by
  have h := (claim_C6 sampleCommitFrame sampleIssueFrame ["X", "Y", "X", "Z"] rfl).2.2.2.2 1
  exact h.trans (by decide)

/-- C5: the summarizer never fails on degenerate input and reports close
rate `closed/total` (0 on an empty issue table) and the mean of
`open_duration_days` over closed issues (0 when there is no closed issue). -/
theorem claim_C5 (parse : String → Option Int) (h : Heap) (ci ii : Nat)
    (fc : Frame SCommitRow) (fi : Frame SIssueRow) (h' : Heap) (r : Report)
    (hc : h.cframes[ci]? = some fc) (hi : h.iframes[ii]? = some fi)
    (hm : merge_and_summarize parse h ci ii = some (h', r)) :
    (fi.rows = [] → r.issue_close_rate = 0) ∧
    (fi.rows ≠ [] →
      r.issue_close_rate =
        ((fi.rows.filter (fun x => x.state == "closed")).length : Rat) /
          (fi.rows.length : Rat)) ∧
    (fi.rows.filter (fun x => x.state == "closed") = [] →
      r.avg_open_duration = some 0) ∧
    (∀ vals, vals = (fi.rows.filter (fun x => x.state == "closed")).filterMap
        (fun x => x.open_duration_days) →
      fi.rows.filter (fun x => x.state == "closed") ≠ [] → vals ≠ [] →
      r.avg_open_duration = some ((vals.sum : Rat) / (vals.length : Rat))) := by
  have hme := merge_and_summarize_eq parse hc hi
  rw [hm] at hme
  have h2 := Option.some.inj hme
  have hr : r = reportOf fc fi := by
    have h3 := congrArg Prod.snd h2
    simpa [reportOf_parse] using h3
  subst hr
  refine ⟨?_, ?_, ?_, ?_⟩
  · intro hempty
    simp [reportOf, hempty]
  · intro hne
    have : fi.rows.isEmpty = false := by
      simp [List.isEmpty_iff, hne]
    simp [reportOf, this]
  · intro hclosed
    simp [reportOf, hclosed]
  · intro vals hv hclosed hvals
    have hce : (fi.rows.filter (fun x => x.state == "closed")).isEmpty = false := by
      simp [List.isEmpty_iff, hclosed]
    have hvals' :
        ((fi.rows.filter (fun x => x.state == "closed")).map
          (fun x => x.open_duration_days)).filterMap id = vals := by
      rw [List.filterMap_map, hv]
      rfl
    have hve : (((fi.rows.filter (fun x => x.state == "closed")).map
        (fun x => x.open_duration_days)).filterMap id).isEmpty = false := by
      rw [hvals']
      simp [List.isEmpty_iff, hvals]
    simp only [reportOf, hce, Bool.false_eq_true, if_false, seriesMean]
    rw [if_neg (by rw [hve]; exact Bool.false_ne_true), hvals']

/-- C5 witness: the theorem applied to the heap with empty frames: the
degenerate input reports rate 0 (and mean 0) instead of dividing by zero. -/
theorem claim_C5_witness : (Report.mk [] 0 (some 0)).issue_close_rate = 0 := by
  have h := claim_C5 noParse emptyHeap 0 0 ⟨COMMIT_COLUMNS, []⟩ ⟨ISSUE_COLUMNS, []⟩
      ⟨[⟨COMMIT_COLUMNS, []⟩, ⟨COMMIT_COLUMNS, []⟩],
       [⟨ISSUE_COLUMNS, []⟩, ⟨ISSUE_COLUMNS, []⟩]⟩
      ⟨[], 0, some 0⟩ rfl rfl rfl
  exact h.1 rfl

/-- C8: date parsing in the summarizer coerces every unparseable string to
null instead of failing, and the report is entirely independent of the
parser — a malformed timestamp can neither abort nor change the report
(the statistics use `state` and `open_duration_days`, never a coerced
date, and the mean skips nulls). -/
theorem claim_C8 :
    (∀ (parse : String → Option Int) (s : String), parse s = none →
      to_datetime parse (PCell.str s) = PCell.null) ∧
    (∀ (parse parse' : String → Option Int) (h : Heap) (ci ii : Nat),
      (merge_and_summarize parse h ci ii).map (fun x => x.2) =
        (merge_and_summarize parse' h ci ii).map (fun x => x.2)) := by
  constructor
  · intro parse s hp
    simp [to_datetime, hp]
  · intro parse parse' h ci ii
    rcases hc : h.cframes[ci]? with _ | fc
    · simp [merge_and_summarize, Heap.copyCommits, hc]
    · rcases hi : h.iframes[ii]? with _ | fi
      · simp [merge_and_summarize, Heap.copyCommits, Heap.copyIssues, hc, hi]
      · rw [merge_and_summarize_eq parse hc hi, merge_and_summarize_eq parse' hc hi]
        simp [reportOf_parse]

/-- C8 witness: the theorem applied to a parser for which every string is
malformed, at a nonsense timestamp. -/
theorem claim_C8_witness :
    to_datetime noParse (PCell.str "2025-13-99T99:99:99") = PCell.null :=
  claim_C8.1 noParse "2025-13-99T99:99:99" rfl

/-- C9: the summarizer works on private copies: it always succeeds on valid
references, and the caller's commit frame and issue frame are unchanged,
row for row and column for column, in the resulting heap. -/
theorem claim_C9 (parse : String → Option Int) (h : Heap) (ci ii : Nat)
    (fc : Frame SCommitRow) (fi : Frame SIssueRow)
    (hc : h.cframes[ci]? = some fc) (hi : h.iframes[ii]? = some fi) :
    (∃ p, merge_and_summarize parse h ci ii = some p) ∧
    (∀ (h' : Heap) (r : Report), merge_and_summarize parse h ci ii = some (h', r) →
      h'.cframes[ci]? = some fc ∧ h'.iframes[ii]? = some fi) := by
  have hme := merge_and_summarize_eq parse hc hi
  refine ⟨⟨_, hme⟩, ?_⟩
  intro h' r hm
  rw [hm] at hme
  have h2 : h' = (⟨h.cframes ++ [fc.mapRows (parseCommitRow parse)],
      h.iframes ++ [(fi.mapRows (parseIssueCreatedRow parse)).mapRows
        (parseIssueClosedRow parse)]⟩ : Heap) :=
    congrArg Prod.fst (Option.some.inj hme)
  have hlc : ci < h.cframes.length := by
    rcases List.getElem?_eq_some.mp hc with ⟨hlt, _⟩
    exact hlt
  have hli : ii < h.iframes.length := by
    rcases List.getElem?_eq_some.mp hi with ⟨hlt, _⟩
    exact hlt
  subst h2
  constructor
  · show (h.cframes ++ [fc.mapRows (parseCommitRow parse)])[ci]? = some fc
    rw [List.getElem?_append_left hlc]
    exact hc
  · show (h.iframes ++ [(fi.mapRows (parseIssueCreatedRow parse)).mapRows
      (parseIssueClosedRow parse)])[ii]? = some fi
    rw [List.getElem?_append_left hli]
    exact hi

/-- C9 witness: the theorem applied to the sample heap: after the call the
caller's two sample frames are still at their references, unmodified. -/
theorem claim_C9_witness :
    sampleHeapAfter.cframes[0]? = some sampleCommitFrame ∧
    sampleHeapAfter.iframes[0]? = some sampleIssueFrame :=
  (claim_C9 noParse sampleHeap 0 0 sampleCommitFrame sampleIssueFrame rfl rfl).2
    sampleHeapAfter
    (reportOf (sampleCommitFrame.mapRows (parseCommitRow noParse))
      ((sampleIssueFrame.mapRows (parseIssueCreatedRow noParse)).mapRows
        (parseIssueClosedRow noParse)))
    rfl

end RepoMiner
